import Mathlib

/-!
Shallow embedding of the ratesync repository (a Plex ⇄ Apple Music track
rating synchroniser) for checking its natural-language specification.

Sources embedded:
* `src/lib/apple-music-client.ts` — `AppleMusicClient.getAppleMusicRating`
  and the sync engine `run`;
* `src/unnamed/part_000` (`plex-client.ts`) — the `PlexClient` class,
  its endpoint configuration table, reference resolution and `fetch`.

JavaScript numbers appearing in rating positions are modelled as `ℚ`
(only comparisons and one division by a constant occur, so rationals are
an exact model of the float operations used); `parseInt` results are
modelled as `Option ℤ` (`none` = `NaN`).
-/

namespace RateSync

/-- Value of a list of decimal digit characters, most significant first
(the accumulation performed by JavaScript `parseInt` on its digit
prefix). -/
def digitsToNat (cs : List Char) : Nat :=
  cs.foldl (fun acc c => acc * 10 + (c.toNat - 48)) 0

/-- JavaScript `parseInt(s, 10)`: an optional sign followed by the
longest prefix of decimal digits; `none` models `NaN` (no digits
found).  Leading whitespace is already removed by the caller's
`String.prototype.trim`, modelled by `jsTrim` below. -/
def parseIntJS (s : String) : Option Int :=
  let cs := s.toList
  let signed : Int × List Char :=
    match cs with
    | '-' :: rest => (-1, rest)
    | '+' :: rest => (1, rest)
    | _ => (1, cs)
  let digits := signed.2.takeWhile Char.isDigit
  if digits.isEmpty then none
  else some (signed.1 * (digitsToNat digits : Int))

/-- JavaScript `String.prototype.trim`: whitespace removed from both
ends (restricted to the ASCII whitespace of `Char.isWhitespace`, which
covers every character the bridge output can start or end with). -/
def jsTrim (s : String) : String :=
  ⟨((s.data.dropWhile Char.isWhitespace).reverse.dropWhile Char.isWhitespace).reverse⟩

/-- JavaScript `Math.round`: nearest integer, halves towards `+∞`. -/
def jsRound (q : ℚ) : ℤ := ⌊q + 1 / 2⌋

/-- The `TrackFilters` interface of `apple-music-client.ts`. -/
structure TrackFilters where
  albumName : String
  artistName : String
  trackName : String
deriving DecidableEq

/-- A failure of the `runAppleScript` bridge invocation (the value
caught by the `catch` clause of `getAppleMusicRating`). -/
inductive BridgeError
  | processError (message : String)
deriving DecidableEq

namespace AppleMusicClient

/-- `AppleMusicClient.getAppleMusicRating`, as a function of the outcome
of the `runAppleScript` bridge call: a thrown error is caught and
normalised to `0`; otherwise the textual result is trimmed and parsed
with `parseInt(·, 10)`; `NaN` yields `0`; a parsed rating is divided by
`10` and rounded with `Math.round`. -/
def getAppleMusicRating (bridgeResult : Except BridgeError String) : ℤ :=
  match bridgeResult with
  | .error _ => 0
  | .ok result =>
    match parseIntJS (jsTrim result) with
    | none => 0
    | some rating => jsRound ((rating : ℚ) / 10)

end AppleMusicClient

/-! ### PlexClient (`src/unnamed/part_000`) -/

/-- The error classes of `plex-client.ts`: `PlexFetchError`,
`PlexResponseError`, the `AssertError` thrown by
`Value.Assert` of typebox, and the plain `Error("Not implemented")`
of the reference resolvers. -/
inductive PlexError
  | fetchError
  | responseError
  | assertError
  | notImplemented
deriving DecidableEq

/-- A JSON value, the result of `response.json()` (or the `null`
substituted for a zero-length body). -/
inductive JValue
  | null
  | bool (b : Bool)
  | num (q : ℚ)
  | str (s : String)
  | arr (elems : List JValue)
  | obj (fields : List (String × JValue))

/-- First field of the given name in a JSON object's field list. -/
def lookupField : List (String × JValue) → String → Option JValue
  | [], _ => none
  | (k, v) :: rest, name => if k = name then some v else lookupField rest name

/-- typebox `T.String()` on a required property. -/
def isStringField : Option JValue → Bool
  | some (.str _) => true
  | _ => false

/-- typebox `T.Optional(T.String())`. -/
def isOptionalStringField : Option JValue → Bool
  | none => true
  | some (.str _) => true
  | _ => false

/-- typebox `T.Optional(T.Number())`. -/
def isOptionalNumberField : Option JValue → Bool
  | none => true
  | some (.num _) => true
  | _ => false

/-- typebox `T.Union([T.Literal("album"), T.Literal("track")])` on a
required property. -/
def isChildTypeField : Option JValue → Bool
  | some (.str s) => s = "album" || s = "track"
  | _ => false

/-- Entry schema of `LIBRARY_SECTION_GET_ALL.responseSchema`:
`{ parentTitle?: string; ratingKey: string; title: string }`
(typebox objects admit additional properties by default). -/
def validSectionAllEntry (v : JValue) : Bool :=
  match v with
  | .obj fields =>
    isOptionalStringField (lookupField fields "parentTitle") &&
    isStringField (lookupField fields "ratingKey") &&
    isStringField (lookupField fields "title")
  | _ => false

/-- Entry schema of `METADATA_GET_CHILDREN.responseSchema`: the section
entry fields plus `type: "album" | "track"` and
`userRating?: number`. -/
def validChildEntry (v : JValue) : Bool :=
  match v with
  | .obj fields =>
    isOptionalStringField (lookupField fields "parentTitle") &&
    isStringField (lookupField fields "ratingKey") &&
    isStringField (lookupField fields "title") &&
    isChildTypeField (lookupField fields "type") &&
    isOptionalNumberField (lookupField fields "userRating")
  | _ => false

/-- The container shape shared by both listing response schemas:
`{ MediaContainer: { Metadata: Entry[] } }`. -/
def validContainer (entryValid : JValue → Bool) (v : JValue) : Bool :=
  match v with
  | .obj fields =>
    match lookupField fields "MediaContainer" with
    | some (.obj mcFields) =>
      match lookupField mcFields "Metadata" with
      | some (.arr entries) => entries.all entryValid
      | _ => false
    | _ => false
  | _ => false

/-- The keys of the `EndpointConfig` table. -/
inductive Endpoint
  | LIBRARY_SECTION_GET_ALL
  | METADATA_GET_CHILDREN
  | ENTITY_RATING_UPDATE
deriving DecidableEq

/-- `EndpointConfig[·].responseSchema`, as a predicate on the parsed
body.  `ENTITY_RATING_UPDATE` declares `T.Any()`, which accepts every
value including `null`. -/
def responseValid : Endpoint → JValue → Bool
  | .LIBRARY_SECTION_GET_ALL, v => validContainer validSectionAllEntry v
  | .METADATA_GET_CHILDREN, v => validContainer validChildEntry v
  | .ENTITY_RATING_UPDATE, _ => true

/-- The values of the `SearchType` constant table. -/
def searchTypeValues : List Nat :=
  [1, 2, 3, 4, 5, 6, 7, 8, 9, 10, 11, 12, 13, 14, 15, 16, 18, 42, 1001]

/-- The `url` part of a request, per endpoint (the shape statically
guaranteed by the TypeScript signatures of the call sites). -/
inductive PlexRequest
  | sectionAll (key : String) (type : Nat) (sort : Option (List String)) (limit : Option Nat)
  | metadataChildren (key : String)
  | ratingUpdate (key : String) (rating : ℚ)
deriving DecidableEq

/-- Endpoint addressed by a request. -/
def requestEndpoint : PlexRequest → Endpoint
  | .sectionAll .. => .LIBRARY_SECTION_GET_ALL
  | .metadataChildren .. => .METADATA_GET_CHILDREN
  | .ratingUpdate .. => .ENTITY_RATING_UPDATE

/-- `Value.Assert(requestSchema, request)`: the only dynamically
checkable constraints are the `T.Enum(SearchType)` membership of
`type` and the `minimum: 0, maximum: 10` bounds on `rating`; every
other declared field is a plain string/array already guaranteed by the
TypeScript types. -/
def requestValid : PlexRequest → Bool
  | .sectionAll _ type _ _ => decide (type ∈ searchTypeValues)
  | .metadataChildren _ => true
  | .ratingUpdate _ rating => decide ((0 : ℚ) ≤ rating) && decide (rating ≤ 10)

/-- The parts of the HTTP response inspected by `PlexClient.fetch`:
`response.ok`, the `Content-Length` header (absent modelled as `none`;
`headers.get` returning `null` is replaced by `""` via `?? ""`), and
the JSON body that `response.json()` would produce. -/
structure HttpResponse where
  ok : Bool
  contentLengthHeader : Option String
  body : JValue

namespace PlexClient

/-- `PlexClient.fetch`: request-shape assertion, then transport check
(`response.ok`), then the body: a parsed `Content-Length` equal to `0`
substitutes `null` for the body without calling `response.json()`;
the resulting body (null or parsed) is asserted against the endpoint's
response schema. -/
def fetch (req : PlexRequest) (resp : HttpResponse) : Except PlexError JValue :=
  if ¬ requestValid req then .error .assertError
  else if ¬ resp.ok then .error .fetchError
  else
    let contentLength := parseIntJS (resp.contentLengthHeader.getD "")
    let body := if contentLength = some 0 then JValue.null else resp.body
    if responseValid (requestEndpoint req) body then .ok body else .error .assertError

end PlexClient

/-! ### Entity references and their resolution -/

/-- The `SectionRef` union type. -/
inductive SectionRef
  | byKey (key : String)
  | byName (name : String)
deriving DecidableEq

/-- The `ArtistRef` union type (`byName` is scoped to a section). -/
inductive ArtistRef
  | byKey (key : String)
  | byName (name : String) (bySection : SectionRef)
deriving DecidableEq

/-- The `AlbumRef` union type (`byName` is scoped to an artist). -/
inductive AlbumRef
  | byKey (key : String)
  | byName (name : String) (byArtist : ArtistRef)
deriving DecidableEq

/-- The `TrackRef` union type (`byName` is scoped to an album). -/
inductive TrackRef
  | byKey (key : String)
  | byName (name : String) (byAlbum : AlbumRef)
deriving DecidableEq

/-- A `Metadata` element of a `LIBRARY_SECTION_GET_ALL` response, as
typed by its response schema. -/
structure SectionAllEntry where
  parentTitle : Option String
  ratingKey : String
  title : String
deriving DecidableEq

/-- The `type` discriminator of `METADATA_GET_CHILDREN` entries. -/
inductive ChildType
  | album
  | track
deriving DecidableEq

/-- A `Metadata` element of a `METADATA_GET_CHILDREN` response, as
typed by its response schema. -/
structure ChildEntry where
  parentTitle : Option String
  ratingKey : String
  title : String
  type : ChildType
  userRating : Option ℚ
deriving DecidableEq

/-- The `ArtistEntry` read model. -/
structure ArtistEntry where
  key : String
  name : String
deriving DecidableEq

/-- The `AlbumEntry` read model. -/
structure AlbumEntry where
  key : String
  name : String
  artistName : String
deriving DecidableEq

/-- The `TrackEntry` read model. -/
structure TrackEntry where
  key : String
  name : String
  albumName : String
  rating : ℚ
deriving DecidableEq

namespace PlexClient

/-- `PlexClient.getSectionKey`: `byKey` short-circuits to the literal
key; anything else throws `Error("Not implemented")`. -/
def getSectionKey : SectionRef → Except PlexError String
  | .byKey key => .ok key
  | _ => .error .notImplemented

/-- `PlexClient.getArtistKey`. -/
def getArtistKey : ArtistRef → Except PlexError String
  | .byKey key => .ok key
  | _ => .error .notImplemented

/-- `PlexClient.getAlbumKey`. -/
def getAlbumKey : AlbumRef → Except PlexError String
  | .byKey key => .ok key
  | _ => .error .notImplemented

/-- `PlexClient.getTrackKey`. -/
def getTrackKey : TrackRef → Except PlexError String
  | .byKey key => .ok key
  | _ => .error .notImplemented

/-- The artist transform of `listArtists`:
`{ key: artist.ratingKey, name: artist.title }`. -/
def artistEntriesOf (metadata : List SectionAllEntry) : List ArtistEntry :=
  metadata.map fun artist => ⟨artist.ratingKey, artist.title⟩

/-- The album transform of `listAlbums`: the `.map` callback throws
`PlexResponseError` at the first entry whose `parentTitle` is
`undefined`, else builds
`{ key: ratingKey, name: title, artistName: parentTitle }`. -/
def albumEntriesOf : List SectionAllEntry → Except PlexError (List AlbumEntry)
  | [] => .ok []
  | album :: rest =>
    match album.parentTitle with
    | none => .error .responseError
    | some parent =>
      match albumEntriesOf rest with
      | .error e => .error e
      | .ok tail => .ok (⟨album.ratingKey, album.title, parent⟩ :: tail)

/-- The album transform of `listArtistAlbums` (same rule as
`albumEntriesOf`, over child entries). -/
def childAlbumEntriesOf : List ChildEntry → Except PlexError (List AlbumEntry)
  | [] => .ok []
  | album :: rest =>
    match album.parentTitle with
    | none => .error .responseError
    | some parent =>
      match childAlbumEntriesOf rest with
      | .error e => .error e
      | .ok tail => .ok (⟨album.ratingKey, album.title, parent⟩ :: tail)

/-- The track transform of `listAlbumTracks`: throws
`PlexResponseError` at the first entry whose `parentTitle` is
`undefined`, else builds `{ key, name, albumName, rating:
track.userRating ?? 0 }`. -/
def trackEntriesOf : List ChildEntry → Except PlexError (List TrackEntry)
  | [] => .ok []
  | track :: rest =>
    match track.parentTitle with
    | none => .error .responseError
    | some parent =>
      match trackEntriesOf rest with
      | .error e => .error e
      | .ok tail =>
        .ok (⟨track.ratingKey, track.title, parent, track.userRating.getD 0⟩ :: tail)

/-- `PlexClient.listArtists`: section key resolution, then the
`LIBRARY_SECTION_GET_ALL` fetch (whose awaited, statically-typed
outcome is the `fetched` argument), then the artist transform. -/
def listArtists (sectionRef : SectionRef)
    (fetched : Except PlexError (List SectionAllEntry)) :
    Except PlexError (List ArtistEntry) := do
  let _sectionKey ← getSectionKey sectionRef
  let data ← fetched
  pure (artistEntriesOf data)

/-- `PlexClient.listAlbums`: section key resolution, then the
`LIBRARY_SECTION_GET_ALL` fetch, then the album transform. -/
def listAlbums (sectionRef : SectionRef)
    (fetched : Except PlexError (List SectionAllEntry)) :
    Except PlexError (List AlbumEntry) := do
  let _sectionKey ← getSectionKey sectionRef
  let data ← fetched
  albumEntriesOf data

/-- `PlexClient.listArtistAlbums`: artist key resolution, then the
`METADATA_GET_CHILDREN` fetch, then the album transform. -/
def listArtistAlbums (artistRef : ArtistRef)
    (fetched : Except PlexError (List ChildEntry)) :
    Except PlexError (List AlbumEntry) := do
  let _key ← getArtistKey artistRef
  let data ← fetched
  childAlbumEntriesOf data

/-- `PlexClient.listAlbumTracks`: album key resolution, then the
`METADATA_GET_CHILDREN` fetch, then the track transform. -/
def listAlbumTracks (albumRef : AlbumRef)
    (fetched : Except PlexError (List ChildEntry)) :
    Except PlexError (List TrackEntry) := do
  let _key ← getAlbumKey albumRef
  let data ← fetched
  trackEntriesOf data

/-- `PlexClient.setTrackRating`: track key resolution, then the
`ENTITY_RATING_UPDATE` fetch with the fixed library identifier, the
resolved key and the rating; the body is discarded. -/
def setTrackRating (trackRef : TrackRef) (rating : ℚ) (resp : HttpResponse) :
    Except PlexError Unit := do
  let key ← getTrackKey trackRef
  let _body ← fetch (.ratingUpdate key rating) resp
  pure ()

end PlexClient

/-! ### Sync engine (`run` of `src/lib/apple-music-client.ts`) -/

/-- The `RatesyncOptions` consumed by `run` (the auth token and base
URL only feed the `PlexClient` constructor and are not part of the
engine's control flow). -/
structure RunOptions where
  dryRun : Bool
  overrideExisting : Bool
deriving DecidableEq

/-- The engine's external collaborators, as the awaited outcomes of the
calls `run` makes: the albums listing for section `byKey "3"`, the
tracks listing per album key, the AppleScript bridge output per filter
triple, and the (non-awaited) rating-write outcome. -/
structure RunEnv where
  listAlbums : Except PlexError (List AlbumEntry)
  listAlbumTracks : String → Except PlexError (List TrackEntry)
  bridge : TrackFilters → Except BridgeError String
  setTrackRating : String → ℚ → Except PlexError Unit

/-- An error propagated out of `run`'s `try` block: a thrown client
error, or the `throw new Error("Unknown error")` of the decision
fall-through. -/
inductive RunError
  | plex (e : PlexError)
  | unknownError
deriving DecidableEq

/-- The observable actions `run` performs, in order: the log events of
§4.3 and the invocations of `setTrackRating`. -/
inductive Event
  | warnMissingAlbumTitle (albumKey : String)
  | loadingTracks (album : String)
  | skipExisting (ourRating : ℚ)
  | bridgeQuery (artistName albumName trackName : String)
  | skipUnrated (ourRating : ℚ) (theirRating : ℤ)
  | skipSame (ourRating : ℚ) (theirRating : ℤ)
  | settingRating (ourRating : ℚ) (theirRating : ℤ)
  | overwritingRating (ourRating : ℚ) (theirRating : ℤ)
  | writeInvoked (trackKey : String) (rating : ℤ)
deriving DecidableEq

/-- Whether an event is an invocation of `setTrackRating`. -/
def isWrite : Event → Bool
  | .writeInvoked _ _ => true
  | _ => false

/-- Whether an event is an invocation of the Apple Music bridge. -/
def isBridgeQuery : Event → Bool
  | .bridgeQuery _ _ _ => true
  | _ => false

/-- The five-row decision table of the track loop (the cascade of `if`
statements at the heart of `run`), with its fall-through. -/
inductive Decision
  | skipExisting
  | skipUnrated
  | skipSame
  | writeFill
  | writeOverride
  | internalError
deriving DecidableEq

/-- The decision taken by the track loop's `if` cascade for given
`overrideExisting`, `ourRating` and `theirRating` values, in the
source's precedence order. -/
def trackDecision (overrideExisting : Bool) (ourRating theirRating : ℚ) : Decision :=
  if overrideExisting = false ∧ 0 < ourRating then .skipExisting
  else if theirRating = 0 then .skipUnrated
  else if theirRating = ourRating then .skipSame
  else if ourRating = 0 then .writeFill
  else if overrideExisting = true then .writeOverride
  else .internalError

/-- The raw condition of row `i` of the decision table (`False` beyond
the five rows). -/
def rowCond (overrideExisting : Bool) (ourRating theirRating : ℚ) : Nat → Prop
  | 0 => overrideExisting = false ∧ 0 < ourRating
  | 1 => theirRating = 0
  | 2 => theirRating = ourRating
  | 3 => ourRating = 0
  | 4 => overrideExisting = true
  | _ => False

/-- Row `i` applies under the precedence order: its condition holds and
no earlier row's condition does. -/
def rowApplies (overrideExisting : Bool) (ourRating theirRating : ℚ) (i : Nat) : Prop :=
  rowCond overrideExisting ourRating theirRating i ∧
    ∀ j, j < i → ¬ rowCond overrideExisting ourRating theirRating j

/-- The body of the track loop of `run`: the existing-rating guard, the
bridge query, the remaining decision rows, and the (non-awaited) write
invocations guarded by `dryRun`.  Returns the events in order and the
`continue`/throw outcome. -/
def processTrack (opts : RunOptions) (env : RunEnv) (album : AlbumEntry)
    (track : TrackEntry) : List Event × Except RunError Unit :=
  let ourRating := track.rating
  if opts.overrideExisting = false ∧ 0 < ourRating then
    ([.skipExisting ourRating], .ok ())
  else
    let theirRating := AppleMusicClient.getAppleMusicRating
      (env.bridge ⟨track.albumName, album.artistName, track.name⟩)
    let evs := [Event.bridgeQuery album.artistName track.albumName track.name]
    if theirRating = 0 then
      (evs ++ [.skipUnrated ourRating theirRating], .ok ())
    else if (theirRating : ℚ) = ourRating then
      (evs ++ [.skipSame ourRating theirRating], .ok ())
    else if ourRating = 0 then
      if opts.dryRun then
        (evs ++ [.settingRating ourRating theirRating], .ok ())
      else
        -- `plexClient.setTrackRating(...)` is invoked without `await`:
        -- its outcome is discarded and cannot influence the run.
        let _pending := env.setTrackRating track.key (theirRating : ℚ)
        (evs ++ [.settingRating ourRating theirRating,
                 .writeInvoked track.key theirRating], .ok ())
    else if opts.overrideExisting = true then
      if opts.dryRun then
        (evs ++ [.overwritingRating ourRating theirRating], .ok ())
      else
        let _pending := env.setTrackRating track.key (theirRating : ℚ)
        (evs ++ [.overwritingRating ourRating theirRating,
                 .writeInvoked track.key theirRating], .ok ())
    else
      (evs, .error .unknownError)

/-- The track loop over one album's tracks; a thrown error aborts the
remaining tracks. -/
def processTracks (opts : RunOptions) (env : RunEnv) (album : AlbumEntry) :
    List TrackEntry → List Event × Except RunError Unit
  | [] => ([], .ok ())
  | track :: rest =>
    let (evs, r) := processTrack opts env album track
    match r with
    | .error e => (evs, .error e)
    | .ok () =>
      let (evs', r') := processTracks opts env album rest
      (evs ++ evs', r')

/-- The album loop of `run`: an empty album name is skipped with a
warning; otherwise the album's tracks are listed (a listing failure is
thrown) and processed; a thrown error aborts the remaining albums. -/
def processAlbums (opts : RunOptions) (env : RunEnv) :
    List AlbumEntry → List Event × Except RunError Unit
  | [] => ([], .ok ())
  | album :: rest =>
    if album.name = "" then
      let (evs, r) := processAlbums opts env rest
      (Event.warnMissingAlbumTitle album.key :: evs, r)
    else
      match env.listAlbumTracks album.key with
      | .error e => ([Event.loadingTracks album.name], .error (.plex e))
      | .ok tracks =>
        let (evs, r) := processTracks opts env album tracks
        match r with
        | .error e => (Event.loadingTracks album.name :: evs, .error e)
        | .ok () =>
          let (evs', r') := processAlbums opts env rest
          (Event.loadingTracks album.name :: (evs ++ evs'), r')

/-- The sync engine `run`: list albums of the configured section, loop
over albums and tracks; the surrounding `try`/`catch` logs fatally and
rethrows, so a thrown error is the run's outcome. -/
def run (opts : RunOptions) (env : RunEnv) : List Event × Except RunError Unit :=
  match env.listAlbums with
  | .error e => ([], .error (.plex e))
  | .ok albums => processAlbums opts env albums

/-! ### Concrete scenarios -/

/-- A `METADATA_GET_CHILDREN` payload holding one track entry whose
`userRating` is the given number. -/
def childrenPayload (q : ℚ) : JValue :=
  .obj [("MediaContainer", .obj [("Metadata", .arr [
    .obj [("parentTitle", .str "Album"), ("ratingKey", .str "t1"),
          ("title", .str "Song"), ("type", .str "track"),
          ("userRating", .num q)]])])]

/-- One valid album with two unrated tracks; the bridge rates both at
native 40; every rating write fails. -/
def envWriteFailure : RunEnv where
  listAlbums := .ok [⟨"k1", "Album", "Artist"⟩]
  listAlbumTracks := fun _ =>
    .ok [⟨"t1", "Song1", "Album", 0⟩, ⟨"t2", "Song2", "Album", 0⟩]
  bridge := fun _ => .ok "40"
  setTrackRating := fun _ _ => .error .fetchError

/-- One valid album with a single already-rated track (`ourRating = 3`). -/
def envRatedTrack : RunEnv where
  listAlbums := .ok [⟨"k1", "Album", "Artist"⟩]
  listAlbumTracks := fun _ => .ok [⟨"t1", "Song", "Album", 3⟩]
  bridge := fun _ => .ok "40"
  setTrackRating := fun _ _ => .ok ()

/-- The albums listing itself fails. -/
def envListFailure : RunEnv where
  listAlbums := .error .fetchError
  listAlbumTracks := fun _ => .ok []
  bridge := fun _ => .ok ""
  setTrackRating := fun _ _ => .ok ()

/-- The tracks listing fails for the single (valid) album. -/
def envTracksFailure : RunEnv where
  listAlbums := .ok [⟨"k1", "Album", "Artist"⟩]
  listAlbumTracks := fun _ => .error .responseError
  bridge := fun _ => .ok ""
  setTrackRating := fun _ _ => .ok ()

/-! ### Evaluation lemmas -/

/-- `Math.round (r / 10)` on an integer `r` is the floor division
`(r + 5) / 10`. -/
theorem jsRound_intCast_div_ten (r : ℤ) : jsRound ((r : ℚ) / 10) = (r + 5) / 10 := by
  have h : (r : ℚ) / 10 + 1 / 2 = ((r + 5 : ℤ) : ℚ) / ((10 : ℕ) : ℚ) := by
    push_cast
    ring
  rw [jsRound, h, Rat.floor_intCast_div_natCast]
  norm_num

/-- `getAppleMusicRating` on successfully parsed bridge output. -/
theorem getAppleMusicRating_parsed (s : String) (r : ℤ)
    (h : parseIntJS (jsTrim s) = some r) :
    AppleMusicClient.getAppleMusicRating (.ok s) = (r + 5) / 10 := by
  rw [AppleMusicClient.getAppleMusicRating, h]
  exact jsRound_intCast_div_ten r

/-- The bridge output `"40"` (native rating 40) becomes the shared
rating `4`. -/
theorem getAppleMusicRating_forty :
    AppleMusicClient.getAppleMusicRating (.ok "40") = 4 := by
  rw [getAppleMusicRating_parsed "40" 40 (by decide)]
  decide

/-! ### Decision-table lemmas -/

/-- At most one row of the decision table applies under the precedence
order. -/
theorem rowApplies_unique {b : Bool} {our their : ℚ} {i j : Nat}
    (hi : rowApplies b our their i) (hj : rowApplies b our their j) : i = j := by
  rcases Nat.lt_trichotomy i j with h | h | h
  · exact absurd hi.1 (hj.2 i h)
  · exact h
  · exact absurd hj.1 (hi.2 j h)

/-! ### C1 -/

/-- C1: for every track decision input `(ourRating, theirRating,
overrideExisting)` with both ratings nonnegative, exactly one row of
the five-row decision table applies under the stated precedence order,
and the final fall-through branch (the internal consistency failure)
is unreachable. -/
theorem decisionTable_total_and_fallthrough_unreachable
    (overrideExisting : Bool) (ourRating theirRating : ℚ)
    (hour : 0 ≤ ourRating) (htheir : 0 ≤ theirRating) :
    (∃! i, rowApplies overrideExisting ourRating theirRating i) ∧
      trackDecision overrideExisting ourRating theirRating ≠ Decision.internalError := by
  by_cases h0 : overrideExisting = false ∧ 0 < ourRating
  · have hrow : rowApplies overrideExisting ourRating theirRating 0 :=
      ⟨h0, by omega⟩
    refine ⟨⟨0, hrow, fun j hj => rowApplies_unique hj hrow⟩, ?_⟩
    simp [trackDecision, h0]
  · by_cases h1 : theirRating = 0
    · have hbefore : ∀ j, j < 1 → ¬ rowCond overrideExisting ourRating theirRating j := by
        intro j hj
        interval_cases j
        exact h0
      have hrow : rowApplies overrideExisting ourRating theirRating 1 := ⟨h1, hbefore⟩
      refine ⟨⟨1, hrow, fun j hj => rowApplies_unique hj hrow⟩, ?_⟩
      simp [trackDecision, h0, h1]
    · by_cases h2 : theirRating = ourRating
      · have hbefore : ∀ j, j < 2 → ¬ rowCond overrideExisting ourRating theirRating j := by
          intro j hj
          interval_cases j
          · exact h0
          · exact h1
        have hrow : rowApplies overrideExisting ourRating theirRating 2 := ⟨h2, hbefore⟩
        refine ⟨⟨2, hrow, fun j hj => rowApplies_unique hj hrow⟩, ?_⟩
        by_cases h4 : ourRating = 0 <;> simp [trackDecision, h0, h1, h2, h4]
      · by_cases h3 : ourRating = 0
        · have hbefore : ∀ j, j < 3 → ¬ rowCond overrideExisting ourRating theirRating j := by
            intro j hj
            interval_cases j
            · exact h0
            · exact h1
            · exact h2
          have hrow : rowApplies overrideExisting ourRating theirRating 3 := ⟨h3, hbefore⟩
          refine ⟨⟨3, hrow, fun j hj => rowApplies_unique hj hrow⟩, ?_⟩
          simp [trackDecision, h0, h1, h2, h3]
        · have hpos : 0 < ourRating := lt_of_le_of_ne hour (Ne.symm h3)
          have hb : overrideExisting = true := by
            cases overrideExisting with
            | false => exact absurd ⟨rfl, hpos⟩ h0
            | true => rfl
          have hbefore : ∀ j, j < 4 → ¬ rowCond overrideExisting ourRating theirRating j := by
            intro j hj
            interval_cases j
            · exact h0
            · exact h1
            · exact h2
            · exact h3
          have hrow : rowApplies overrideExisting ourRating theirRating 4 := ⟨hb, hbefore⟩
          refine ⟨⟨4, hrow, fun j hj => rowApplies_unique hj hrow⟩, ?_⟩
          simp [trackDecision, h0, h1, h2, h3, hb]

/-- C1 witness: at `overrideExisting = false`, `ourRating = 1`,
`theirRating = 2`, the table is total and exclusive and the
fall-through is not taken. -/
theorem decisionTable_total_and_fallthrough_unreachable_witness :
    (∃! i, rowApplies false 1 2 i) ∧ trackDecision false 1 2 ≠ Decision.internalError :=
  decisionTable_total_and_fallthrough_unreachable false 1 2 (by norm_num) (by norm_num)

/-! ### C2 -/

/-- C2 counterexample: the native rating 60 lies in 0–100 and parses
successfully, yet `getAppleMusicRating` returns `round (60 / 10) = 6`,
which is outside the shared 0–5 integer scale. -/
theorem appleRating_sixty_outside_shared_scale :
    parseIntJS (jsTrim "60") = some 60 ∧
    AppleMusicClient.getAppleMusicRating (.ok "60") = 6 ∧
    ¬ AppleMusicClient.getAppleMusicRating (.ok "60") ≤ 5 := by
  have h : AppleMusicClient.getAppleMusicRating (.ok "60") = 6 := by
    rw [getAppleMusicRating_parsed "60" 60 (by decide)]
    decide
  exact ⟨by decide, h, by rw [h]; decide⟩

/-- C2 amended: every successfully parsed native rating is divided by
the local system's 10-point step size and rounded to the nearest
integer (halves up), and the returned value lies in the 0–10 integer
range — not 0–5 — for every native rating in 0–100. -/
theorem appleRating_divides_by_ten_into_zero_to_ten :
    (∀ s r, parseIntJS (jsTrim s) = some r →
      AppleMusicClient.getAppleMusicRating (.ok s) = jsRound ((r : ℚ) / 10)) ∧
    (∀ s r, parseIntJS (jsTrim s) = some r → 0 ≤ r → r ≤ 100 →
      0 ≤ AppleMusicClient.getAppleMusicRating (.ok s) ∧
        AppleMusicClient.getAppleMusicRating (.ok s) ≤ 10) := by
  constructor
  · intro s r h
    rw [AppleMusicClient.getAppleMusicRating, h]
  · intro s r h h0 h100
    rw [getAppleMusicRating_parsed s r h]
    constructor <;> omega

/-- C2 amended witness: at bridge output `"40"` (native rating 40),
the result is `round (40 / 10) = 4`, inside 0–10. -/
theorem appleRating_divides_by_ten_into_zero_to_ten_witness :
    AppleMusicClient.getAppleMusicRating (.ok "40") = jsRound ((40 : ℚ) / 10) ∧
    0 ≤ AppleMusicClient.getAppleMusicRating (.ok "40") ∧
      AppleMusicClient.getAppleMusicRating (.ok "40") ≤ 10 :=
  ⟨appleRating_divides_by_ten_into_zero_to_ten.1 "40" 40 (by decide),
   appleRating_divides_by_ten_into_zero_to_ten.2 "40" 40 (by decide) (by decide) (by decide)⟩

/-! ### C7 -/

/-- C7: `getAppleMusicRating` never propagates a failure: a thrown
bridge error is caught and returns 0, an unparseable (non-numeric or
empty, hence also no-match) output returns 0, and a genuinely unrated
track (parsed native rating 0) also returns 0 — so the caller cannot
distinguish the cases from the value alone. -/
theorem bridge_failures_normalized_to_zero :
    (∀ e, AppleMusicClient.getAppleMusicRating (.error e) = 0) ∧
    (∀ s, parseIntJS (jsTrim s) = none → AppleMusicClient.getAppleMusicRating (.ok s) = 0) ∧
    AppleMusicClient.getAppleMusicRating (.ok "0") = 0 := by
  refine ⟨fun e => rfl, fun s h => ?_, ?_⟩
  · rw [AppleMusicClient.getAppleMusicRating, h]
  · rw [getAppleMusicRating_parsed "0" 0 (by decide)]
    decide

/-- C7 witness: a process error and the empty (no-match) output both
return 0. -/
theorem bridge_failures_normalized_to_zero_witness :
    AppleMusicClient.getAppleMusicRating (.error (.processError "exec failed")) = 0 ∧
    AppleMusicClient.getAppleMusicRating (.ok "") = 0 :=
  ⟨bridge_failures_normalized_to_zero.1 _,
   bridge_failures_normalized_to_zero.2.1 "" (by decide)⟩

/-! ### C4 -/

/-- C4 counterexample: a successful `LIBRARY_SECTION_GET_ALL` response
with `Content-Length: 0` substitutes `null` for the body, but the body
is still asserted against the response schema — the operation raises
the assertion error instead of returning a null result. -/
theorem zero_length_body_sectionAll_raises :
    PlexClient.fetch (.sectionAll "3" 9 none none) ⟨true, some "0", JValue.null⟩ =
      .error .assertError := rfl

/-- C4 amended: a zero-length response body is treated as `null` and
skips JSON parsing, but it is still passed to response-shape
validation; it yields a null result only for the operation whose
response schema is `T.Any()` (`ENTITY_RATING_UPDATE`), while both
listing endpoints raise the assertion error on a zero-length body. -/
theorem zero_length_body_null_still_validated :
    (∀ (resp : HttpResponse) (key : String) (rating : ℚ), resp.ok = true →
      parseIntJS (resp.contentLengthHeader.getD "") = some 0 →
      (0 : ℚ) ≤ rating → rating ≤ 10 →
      PlexClient.fetch (.ratingUpdate key rating) resp = .ok JValue.null) ∧
    (∀ (resp : HttpResponse) (key : String) (type : Nat) srt lim, resp.ok = true →
      parseIntJS (resp.contentLengthHeader.getD "") = some 0 →
      type ∈ searchTypeValues →
      PlexClient.fetch (.sectionAll key type srt lim) resp = .error .assertError) ∧
    (∀ (resp : HttpResponse) (key : String), resp.ok = true →
      parseIntJS (resp.contentLengthHeader.getD "") = some 0 →
      PlexClient.fetch (.metadataChildren key) resp = .error .assertError) := by
  refine ⟨fun resp key rating hok hcl h0 h10 => ?_,
    fun resp key type srt lim hok hcl hty => ?_, fun resp key hok hcl => ?_⟩
  · simp [PlexClient.fetch, requestValid, requestEndpoint, responseValid, hok, hcl, h0, h10]
  · simp [PlexClient.fetch, requestValid, requestEndpoint, responseValid, validContainer,
      hok, hcl, hty]
  · simp [PlexClient.fetch, requestValid, requestEndpoint, responseValid, validContainer,
      hok, hcl]

/-- C4 amended witness: concrete zero-length responses — the rating
update returns null, both listings raise. -/
theorem zero_length_body_null_still_validated_witness :
    PlexClient.fetch (.ratingUpdate "t1" 10) ⟨true, some "0", JValue.null⟩ =
      .ok JValue.null ∧
    PlexClient.fetch (.sectionAll "3" 9 none none) ⟨true, some "0", JValue.arr []⟩ =
      .error .assertError ∧
    PlexClient.fetch (.metadataChildren "k") ⟨true, some "0", JValue.null⟩ =
      .error .assertError :=
  ⟨zero_length_body_null_still_validated.1 ⟨true, some "0", JValue.null⟩ "t1" 10 rfl
      (by decide) (by norm_num) (by norm_num),
   zero_length_body_null_still_validated.2.1 ⟨true, some "0", JValue.arr []⟩ "3" 9 none none
      rfl (by decide) (by decide),
   zero_length_body_null_still_validated.2.2 ⟨true, some "0", JValue.null⟩ "k" rfl (by decide)⟩

/-! ### Missing-parent lemmas -/

/-- `albumEntriesOf` raises `PlexResponseError` as soon as some entry
lacks a parent title. -/
theorem albumEntriesOf_error_of_missing_parent {entries : List SectionAllEntry}
    {e : SectionAllEntry} (hm : e ∈ entries) (hn : e.parentTitle = none) :
    PlexClient.albumEntriesOf entries = .error .responseError := by
  induction entries with
  | nil => cases hm
  | cons a rest ih =>
    rcases List.mem_cons.mp hm with rfl | hm'
    · simp [PlexClient.albumEntriesOf, hn]
    · cases hpa : a.parentTitle with
      | none => simp [PlexClient.albumEntriesOf, hpa]
      | some p => simp [PlexClient.albumEntriesOf, hpa, ih hm']

/-- `childAlbumEntriesOf` raises `PlexResponseError` as soon as some
entry lacks a parent title. -/
theorem childAlbumEntriesOf_error_of_missing_parent {entries : List ChildEntry}
    {e : ChildEntry} (hm : e ∈ entries) (hn : e.parentTitle = none) :
    PlexClient.childAlbumEntriesOf entries = .error .responseError := by
  induction entries with
  | nil => cases hm
  | cons a rest ih =>
    rcases List.mem_cons.mp hm with rfl | hm'
    · simp [PlexClient.childAlbumEntriesOf, hn]
    · cases hpa : a.parentTitle with
      | none => simp [PlexClient.childAlbumEntriesOf, hpa]
      | some p => simp [PlexClient.childAlbumEntriesOf, hpa, ih hm']

/-- `trackEntriesOf` raises `PlexResponseError` as soon as some entry
lacks a parent title. -/
theorem trackEntriesOf_error_of_missing_parent {entries : List ChildEntry}
    {e : ChildEntry} (hm : e ∈ entries) (hn : e.parentTitle = none) :
    PlexClient.trackEntriesOf entries = .error .responseError := by
  induction entries with
  | nil => cases hm
  | cons a rest ih =>
    rcases List.mem_cons.mp hm with rfl | hm'
    · simp [PlexClient.trackEntriesOf, hn]
    · cases hpa : a.parentTitle with
      | none => simp [PlexClient.trackEntriesOf, hpa]
      | some p => simp [PlexClient.trackEntriesOf, hpa, ih hm']

/-! ### C6 -/

/-- C6: whenever some entry of the listing payload lacks the parent
(artist or album) name, `listAlbums`, `listArtistAlbums` and
`listAlbumTracks` raise the typed response-shape error
(`PlexResponseError`) instead of substituting a default. -/
theorem listings_missing_parent_raise_response_error
    (k1 k2 k3 : String)
    (sentries : List SectionAllEntry) (e1 : SectionAllEntry)
    (centries1 centries2 : List ChildEntry) (e2 e3 : ChildEntry)
    (h1 : e1 ∈ sentries) (h1n : e1.parentTitle = none)
    (h2 : e2 ∈ centries1) (h2n : e2.parentTitle = none)
    (h3 : e3 ∈ centries2) (h3n : e3.parentTitle = none) :
    PlexClient.listAlbums (.byKey k1) (.ok sentries) = .error .responseError ∧
    PlexClient.listArtistAlbums (.byKey k2) (.ok centries1) = .error .responseError ∧
    PlexClient.listAlbumTracks (.byKey k3) (.ok centries2) = .error .responseError := by
  refine ⟨?_, ?_, ?_⟩
  · show PlexClient.albumEntriesOf sentries = .error .responseError
    exact albumEntriesOf_error_of_missing_parent h1 h1n
  · show PlexClient.childAlbumEntriesOf centries1 = .error .responseError
    exact childAlbumEntriesOf_error_of_missing_parent h2 h2n
  · show PlexClient.trackEntriesOf centries2 = .error .responseError
    exact trackEntriesOf_error_of_missing_parent h3 h3n

/-- C6 witness: singleton payloads whose entry lacks `parentTitle`. -/
theorem listings_missing_parent_raise_response_error_witness :
    PlexClient.listAlbums (.byKey "3") (.ok [⟨none, "a1", "Album"⟩]) =
      .error .responseError ∧
    PlexClient.listArtistAlbums (.byKey "7") (.ok [⟨none, "a2", "Album2", .album, none⟩]) =
      .error .responseError ∧
    PlexClient.listAlbumTracks (.byKey "9") (.ok [⟨none, "t1", "Song", .track, some 3⟩]) =
      .error .responseError :=
  listings_missing_parent_raise_response_error "3" "7" "9"
    [⟨none, "a1", "Album"⟩] ⟨none, "a1", "Album"⟩
    [⟨none, "a2", "Album2", .album, none⟩] [⟨none, "t1", "Song", .track, some 3⟩]
    ⟨none, "a2", "Album2", .album, none⟩ ⟨none, "t1", "Song", .track, some 3⟩
    (by decide) rfl (by decide) rfl (by decide) rfl

/-! ### C8 -/

/-- C8: for every operation and entity reference, the `byKey` variant
resolves to the literal key, and every `byName` variant fails with the
hard "Not implemented" error before (independently of) the
endpoint-specific fetch. -/
theorem byKey_literal_byName_not_implemented :
    (∀ k, PlexClient.getSectionKey (.byKey k) = .ok k) ∧
    (∀ n, PlexClient.getSectionKey (.byName n) = .error .notImplemented) ∧
    (∀ k, PlexClient.getArtistKey (.byKey k) = .ok k) ∧
    (∀ n sref, PlexClient.getArtistKey (.byName n sref) = .error .notImplemented) ∧
    (∀ k, PlexClient.getAlbumKey (.byKey k) = .ok k) ∧
    (∀ n aref, PlexClient.getAlbumKey (.byName n aref) = .error .notImplemented) ∧
    (∀ k, PlexClient.getTrackKey (.byKey k) = .ok k) ∧
    (∀ n alref, PlexClient.getTrackKey (.byName n alref) = .error .notImplemented) ∧
    (∀ n fetched, PlexClient.listArtists (.byName n) fetched = .error .notImplemented) ∧
    (∀ n fetched, PlexClient.listAlbums (.byName n) fetched = .error .notImplemented) ∧
    (∀ n aref fetched,
      PlexClient.listArtistAlbums (.byName n aref) fetched = .error .notImplemented) ∧
    (∀ n aref fetched,
      PlexClient.listAlbumTracks (.byName n aref) fetched = .error .notImplemented) ∧
    (∀ n alref rating resp,
      PlexClient.setTrackRating (.byName n alref) rating resp = .error .notImplemented) :=
  ⟨fun _ => rfl, fun _ => rfl, fun _ => rfl, fun _ _ => rfl, fun _ => rfl, fun _ _ => rfl,
   fun _ => rfl, fun _ _ => rfl, fun _ _ => rfl, fun _ _ => rfl, fun _ _ _ => rfl,
   fun _ _ _ => rfl, fun _ _ _ _ => rfl⟩

/-! ### C10 -/

/-- C10: `listAlbumTracks` performs no range or integrality check on
`userRating`: the children response schema accepts any numeric value
(negative, fractional or above 5), the transform copies it unchanged
into the track entry's `rating`, and only an absent `userRating`
defaults to 0. -/
theorem userRating_passed_through_unvalidated :
    (∀ q : ℚ, responseValid .METADATA_GET_CHILDREN (childrenPayload q) = true) ∧
    (∀ (p k t : String) (ty : ChildType) (ur : Option ℚ) (rest : List ChildEntry),
      PlexClient.trackEntriesOf (⟨some p, k, t, ty, ur⟩ :: rest) =
        (PlexClient.trackEntriesOf rest).map
          (fun tail => ⟨k, t, p, ur.getD 0⟩ :: tail)) ∧
    (∀ (p k t : String) (ty : ChildType) (q : ℚ),
      PlexClient.listAlbumTracks (.byKey "1") (.ok [⟨some p, k, t, ty, some q⟩]) =
        .ok [⟨k, t, p, q⟩]) := by
  refine ⟨fun q => rfl, fun p k t ty ur rest => ?_, fun p k t ty q => rfl⟩
  cases h : PlexClient.trackEntriesOf rest <;>
    simp [PlexClient.trackEntriesOf, h, Except.map]

/-! ### Track-loop lemmas -/

/-- The write invocations of a track's processing are exactly the one
prescribed by the decision table when a write row fires outside
dry-run mode, and the written rating is `theirRating`. -/
theorem filter_isWrite_processTrack (opts : RunOptions) (env : RunEnv)
    (album : AlbumEntry) (track : TrackEntry) :
    (processTrack opts env album track).1.filter isWrite =
      (if (trackDecision opts.overrideExisting track.rating
            ((AppleMusicClient.getAppleMusicRating
              (env.bridge ⟨track.albumName, album.artistName, track.name⟩) : ℤ) : ℚ) =
              Decision.writeFill ∨
          trackDecision opts.overrideExisting track.rating
            ((AppleMusicClient.getAppleMusicRating
              (env.bridge ⟨track.albumName, album.artistName, track.name⟩) : ℤ) : ℚ) =
              Decision.writeOverride) ∧ opts.dryRun = false
       then [Event.writeInvoked track.key
              (AppleMusicClient.getAppleMusicRating
                (env.bridge ⟨track.albumName, album.artistName, track.name⟩))]
       else []) := by
  by_cases h0 : opts.overrideExisting = false ∧ 0 < track.rating
  · simp [processTrack, trackDecision, h0, isWrite]
  · by_cases h1 : AppleMusicClient.getAppleMusicRating
        (env.bridge ⟨track.albumName, album.artistName, track.name⟩) = 0
    · simp [processTrack, trackDecision, h0, h1, isWrite]
    · by_cases h2 : ((AppleMusicClient.getAppleMusicRating
          (env.bridge ⟨track.albumName, album.artistName, track.name⟩) : ℤ) : ℚ) =
          track.rating
      · simp only [processTrack, trackDecision, h0, h1, h2, isWrite]
        simp [isWrite]
        split <;> simp_all
      · by_cases h3 : track.rating = 0
        · by_cases hd : opts.dryRun = true
          · simp [processTrack, trackDecision, h0, h1, h2, h3, hd, isWrite]
          · simp [processTrack, trackDecision, h0, h1, h2, h3, hd, isWrite]
        · by_cases h4 : opts.overrideExisting = true
          · by_cases hd : opts.dryRun = true
            · simp [processTrack, trackDecision, h0, h1, h2, h3, h4, hd, isWrite]
            · simp [processTrack, trackDecision, h0, h1, h2, h3, h4, hd, isWrite]
          · have hb : opts.overrideExisting = false := by
              cases hov : opts.overrideExisting with
              | false => rfl
              | true => exact absurd hov h4
            have hnr : ¬ 0 < track.rating := fun hr => h0 ⟨hb, hr⟩
            simp [processTrack, trackDecision, h0, h1, h2, h3, h4, hb, hnr, isWrite]

/-- Dry-run processing of a track emits exactly the non-write events of
normal processing: dry-run output is a faithful preview. -/
theorem processTrack_dry_trace (b : Bool) (env : RunEnv)
    (album : AlbumEntry) (track : TrackEntry) :
    (processTrack ⟨true, b⟩ env album track).1 =
      (processTrack ⟨false, b⟩ env album track).1.filter (fun e => ! isWrite e) := by
  by_cases h0 : b = false ∧ 0 < track.rating
  · simp [processTrack, h0, isWrite]
  · by_cases h1 : AppleMusicClient.getAppleMusicRating
        (env.bridge ⟨track.albumName, album.artistName, track.name⟩) = 0
    · simp [processTrack, h0, h1, isWrite]
    · by_cases h2 : ((AppleMusicClient.getAppleMusicRating
          (env.bridge ⟨track.albumName, album.artistName, track.name⟩) : ℤ) : ℚ) =
          track.rating
      · simp [processTrack, h0, h1, h2, isWrite]
      · by_cases h3 : track.rating = 0
        · simp [processTrack, h0, h1, h2, h3, isWrite]
        · by_cases h4 : b = true
          · simp [processTrack, h0, h1, h2, h3, h4, isWrite]
          · simp only [processTrack, h0, h1, h2, h3, h4, isWrite]
            split <;> simp [isWrite]

/-- No write event is emitted for a track in dry-run mode. -/
theorem processTrack_dry_no_writes (b : Bool) (env : RunEnv)
    (album : AlbumEntry) (track : TrackEntry) :
    (processTrack ⟨true, b⟩ env album track).1.filter isWrite = [] := by
  rw [processTrack_dry_trace]
  simp [List.filter_filter]

/-- No write event is emitted over a track list in dry-run mode. -/
theorem processTracks_dry_no_writes (b : Bool) (env : RunEnv) (album : AlbumEntry)
    (tracks : List TrackEntry) :
    (processTracks ⟨true, b⟩ env album tracks).1.filter isWrite = [] := by
  induction tracks with
  | nil => simp [processTracks]
  | cons t ts ih =>
    have ht := processTrack_dry_no_writes b env album t
    cases hp : processTrack ⟨true, b⟩ env album t with
    | mk evs r =>
      rw [hp] at ht
      cases r with
      | error e => simp [processTracks, hp, ht]
      | ok u => simp [processTracks, hp, List.filter_append, ht, ih]

/-- No write event is emitted over an album list in dry-run mode. -/
theorem processAlbums_dry_no_writes (b : Bool) (env : RunEnv)
    (albums : List AlbumEntry) :
    (processAlbums ⟨true, b⟩ env albums).1.filter isWrite = [] := by
  induction albums with
  | nil => simp [processAlbums]
  | cons a rest ih =>
    by_cases hn : a.name = ""
    · simp [processAlbums, hn, isWrite, ih]
    · cases hl : env.listAlbumTracks a.key with
      | error e => simp [processAlbums, hn, hl, isWrite]
      | ok tracks =>
        have ht := processTracks_dry_no_writes b env a tracks
        cases hp : processTracks ⟨true, b⟩ env a tracks with
        | mk evs r =>
          rw [hp] at ht
          cases r with
          | error e => simp [processAlbums, hn, hl, hp, isWrite, ht]
          | ok u => simp [processAlbums, hn, hl, hp, List.filter_append, isWrite, ht, ih]

/-! ### C5 -/

/-- C5: for every visited track, `setTrackRating` is invoked exactly
when a write row of the decision table fires outside dry-run mode, and
the written rating equals `theirRating`; in dry-run mode the engine
still computes and logs every decision (the trace is the non-write
part of the normal trace) but never invokes a write, at every level up
to a whole run. -/
theorem writes_exactly_on_write_rows_and_dryRun_preview :
    (∀ (opts : RunOptions) (env : RunEnv) (album : AlbumEntry) (track : TrackEntry),
      (processTrack opts env album track).1.filter isWrite =
        (if (trackDecision opts.overrideExisting track.rating
              ((AppleMusicClient.getAppleMusicRating
                (env.bridge ⟨track.albumName, album.artistName, track.name⟩) : ℤ) : ℚ) =
                Decision.writeFill ∨
            trackDecision opts.overrideExisting track.rating
              ((AppleMusicClient.getAppleMusicRating
                (env.bridge ⟨track.albumName, album.artistName, track.name⟩) : ℤ) : ℚ) =
                Decision.writeOverride) ∧ opts.dryRun = false
         then [Event.writeInvoked track.key
                (AppleMusicClient.getAppleMusicRating
                  (env.bridge ⟨track.albumName, album.artistName, track.name⟩))]
         else [])) ∧
    (∀ (b : Bool) (env : RunEnv) (album : AlbumEntry) (track : TrackEntry),
      (processTrack ⟨true, b⟩ env album track).1 =
        (processTrack ⟨false, b⟩ env album track).1.filter (fun e => ! isWrite e)) ∧
    (∀ (b : Bool) (env : RunEnv), (run ⟨true, b⟩ env).1.filter isWrite = []) := by
  refine ⟨filter_isWrite_processTrack, processTrack_dry_trace, fun b env => ?_⟩
  cases h : env.listAlbums with
  | error e => simp [run, h]
  | ok albums => simp [run, h, processAlbums_dry_no_writes]

/-! ### Write-outcome irrelevance lemmas -/

/-- The outcome of `setTrackRating` never reaches the track loop: the
call is not awaited, so processing a track is unchanged when the write
outcome changes. -/
theorem processTrack_write_outcome_irrelevant (opts : RunOptions)
    (la : Except PlexError (List AlbumEntry))
    (lt : String → Except PlexError (List TrackEntry))
    (br : TrackFilters → Except BridgeError String)
    (f g : String → ℚ → Except PlexError Unit)
    (album : AlbumEntry) (track : TrackEntry) :
    processTrack opts ⟨la, lt, br, f⟩ album track =
      processTrack opts ⟨la, lt, br, g⟩ album track := rfl

/-- Write-outcome irrelevance lifted to a track list. -/
theorem processTracks_write_outcome_irrelevant (opts : RunOptions)
    (la : Except PlexError (List AlbumEntry))
    (lt : String → Except PlexError (List TrackEntry))
    (br : TrackFilters → Except BridgeError String)
    (f g : String → ℚ → Except PlexError Unit)
    (album : AlbumEntry) (tracks : List TrackEntry) :
    processTracks opts ⟨la, lt, br, f⟩ album tracks =
      processTracks opts ⟨la, lt, br, g⟩ album tracks := by
  induction tracks with
  | nil => rfl
  | cons t ts ih =>
    simp only [processTracks,
      processTrack_write_outcome_irrelevant opts la lt br f g album t, ih]

/-- Write-outcome irrelevance lifted to an album list. -/
theorem processAlbums_write_outcome_irrelevant (opts : RunOptions)
    (la : Except PlexError (List AlbumEntry))
    (lt : String → Except PlexError (List TrackEntry))
    (br : TrackFilters → Except BridgeError String)
    (f g : String → ℚ → Except PlexError Unit)
    (albums : List AlbumEntry) :
    processAlbums opts ⟨la, lt, br, f⟩ albums =
      processAlbums opts ⟨la, lt, br, g⟩ albums := by
  induction albums with
  | nil => rfl
  | cons a rest ih =>
    by_cases hn : a.name = ""
    · simp only [processAlbums, hn, if_pos, ih]
    · simp only [processAlbums, hn, if_neg, ite_false]
      cases hl : lt a.key with
      | error e => rfl
      | ok tracks =>
        simp only [processTracks_write_outcome_irrelevant opts la lt br f g a tracks, ih]

/-! ### C3 -/

/-- C3 counterexample: every `setTrackRating` call fails in
`envWriteFailure`, yet the run does not abort: both tracks are still
processed (both write invocations appear) and the run finishes
successfully, with no error logged fatally or propagated — because the
write is invoked without being awaited. -/
theorem run_continues_after_write_failure :
    envWriteFailure.setTrackRating "t1" 4 = .error .fetchError ∧
    run ⟨false, false⟩ envWriteFailure =
      ([.loadingTracks "Album",
        .bridgeQuery "Artist" "Album" "Song1", .settingRating 0 4, .writeInvoked "t1" 4,
        .bridgeQuery "Artist" "Album" "Song2", .settingRating 0 4, .writeInvoked "t2" 4],
       .ok ()) := by
  refine ⟨rfl, ?_⟩
  have hA : ("Album" : String) ≠ "" := by decide
  norm_num [run, envWriteFailure, processAlbums, processTracks, processTrack,
    getAppleMusicRating_forty, hA]

/-- C3 amended: an unexpected error raised during a listing operation
(albums or tracks) aborts the pass immediately and is propagated to
the caller; a failure of `setTrackRating`, however, is invoked without
`await`, so its outcome never influences the run — it neither aborts
the pass nor is propagated. -/
theorem listing_errors_abort_but_write_errors_are_ignored :
    (∀ (opts : RunOptions) (env : RunEnv) (e : PlexError),
      env.listAlbums = .error e → run opts env = ([], .error (.plex e))) ∧
    (∀ (opts : RunOptions) (env : RunEnv) (album : AlbumEntry)
        (rest : List AlbumEntry) (e : PlexError),
      album.name ≠ "" → env.listAlbumTracks album.key = .error e →
      processAlbums opts env (album :: rest) =
        ([Event.loadingTracks album.name], .error (.plex e))) ∧
    (∀ (opts : RunOptions) (la : Except PlexError (List AlbumEntry))
        (lt : String → Except PlexError (List TrackEntry))
        (br : TrackFilters → Except BridgeError String)
        (f g : String → ℚ → Except PlexError Unit),
      run opts ⟨la, lt, br, f⟩ = run opts ⟨la, lt, br, g⟩) := by
  refine ⟨fun opts env e h => ?_, fun opts env album rest e hn hl => ?_,
    fun opts la lt br f g => ?_⟩
  · simp [run, h]
  · simp [processAlbums, hn, hl]
  · cases la with
    | error e => rfl
    | ok albums =>
      simp only [run, processAlbums_write_outcome_irrelevant opts _ lt br f g albums]

/-- C3 amended witness: a failing albums listing aborts with the
propagated error; a failing tracks listing aborts after the first
album; two runs differing only in the write outcome coincide. -/
theorem listing_errors_abort_but_write_errors_are_ignored_witness :
    run ⟨false, false⟩ envListFailure = ([], .error (.plex .fetchError)) ∧
    processAlbums ⟨false, false⟩ envTracksFailure [⟨"k1", "Album", "Artist"⟩] =
      ([Event.loadingTracks "Album"], .error (.plex .responseError)) ∧
    run ⟨false, false⟩ ⟨.ok [], fun _ => .ok [], fun _ => .ok "", fun _ _ => .error .fetchError⟩ =
      run ⟨false, false⟩ ⟨.ok [], fun _ => .ok [], fun _ => .ok "", fun _ _ => .ok ()⟩ :=
  ⟨listing_errors_abort_but_write_errors_are_ignored.1 ⟨false, false⟩ envListFailure
      .fetchError rfl,
   listing_errors_abort_but_write_errors_are_ignored.2.1 ⟨false, false⟩ envTracksFailure
      ⟨"k1", "Album", "Artist"⟩ [] .responseError (by decide) rfl,
   listing_errors_abort_but_write_errors_are_ignored.2.2 ⟨false, false⟩ (.ok [])
      (fun _ => .ok []) (fun _ => .ok "") (fun _ _ => .error .fetchError) (fun _ _ => .ok ())⟩

/-! ### C9 -/

/-- When the first decision row does not fire, the trace of a track's
processing starts with the bridge query. -/
theorem processTrack_trace_cons_of_first_row_passed (opts : RunOptions) (env : RunEnv)
    (album : AlbumEntry) (track : TrackEntry)
    (h0 : ¬(opts.overrideExisting = false ∧ 0 < track.rating)) :
    ∃ rest, (processTrack opts env album track).1 =
      Event.bridgeQuery album.artistName track.albumName track.name :: rest := by
  simp only [processTrack, if_neg h0]
  split
  · exact ⟨_, rfl⟩
  · split
    · exact ⟨_, rfl⟩
    · split
      · split
        · exact ⟨_, rfl⟩
        · exact ⟨_, rfl⟩
      · split
        · split
          · exact ⟨_, rfl⟩
          · exact ⟨_, rfl⟩
        · exact ⟨_, rfl⟩

/-- C9 counterexample: a visited track (processed and logged) with an
existing rating and `overrideExisting` off is skipped before the Local
Rating Reader is consulted: the run trace contains no bridge query, so
the reader is not invoked for every visited track. -/
theorem reader_not_invoked_for_rated_track :
    run ⟨false, false⟩ envRatedTrack =
      ([.loadingTracks "Album", .skipExisting 3], .ok ()) ∧
    (run ⟨false, false⟩ envRatedTrack).1.filter isBridgeQuery = [] := by
  have h : run ⟨false, false⟩ envRatedTrack =
      ([.loadingTracks "Album", .skipExisting 3], .ok ()) := by
    have hA : ("Album" : String) ≠ "" := by decide
    norm_num [run, envRatedTrack, processAlbums, processTracks, processTrack, hA]
  rw [h]
  exact ⟨rfl, rfl⟩

/-- C9 amended: the engine reads the existing remote rating first and
applies the first decision row to it before any bridge call; the Local
Rating Reader is invoked exactly for the visited tracks that pass the
first row (`overrideExisting` on, or `ourRating ≤ 0`), and for those
the query precedes every other decision step (it heads the trace). -/
theorem reader_invoked_iff_first_row_passed (opts : RunOptions) (env : RunEnv)
    (album : AlbumEntry) (track : TrackEntry) :
    (Event.bridgeQuery album.artistName track.albumName track.name ∈
        (processTrack opts env album track).1 ↔
      ¬(opts.overrideExisting = false ∧ 0 < track.rating)) ∧
    (¬(opts.overrideExisting = false ∧ 0 < track.rating) →
      (processTrack opts env album track).1.head? =
        some (Event.bridgeQuery album.artistName track.albumName track.name)) := by
  by_cases h0 : opts.overrideExisting = false ∧ 0 < track.rating
  · constructor
    · simp [processTrack, h0]
    · intro h
      exact absurd h0 h
  · obtain ⟨rest, hr⟩ :=
      processTrack_trace_cons_of_first_row_passed opts env album track h0
    constructor
    · simp [hr, h0]
    · intro _
      simp [hr]

/-- C9 amended witness: with `overrideExisting` on, a rated track's
trace starts with the bridge query. -/
theorem reader_invoked_iff_first_row_passed_witness :
    (processTrack ⟨false, true⟩ envRatedTrack ⟨"k1", "Album", "Artist"⟩
        ⟨"t1", "Song", "Album", 3⟩).1.head? =
      some (Event.bridgeQuery "Artist" "Album" "Song") :=
  (reader_invoked_iff_first_row_passed ⟨false, true⟩ envRatedTrack
      ⟨"k1", "Album", "Artist"⟩ ⟨"t1", "Song", "Album", 3⟩).2 (by simp)

end RateSync
